import Mathlib

set_option maxRecDepth 8000

/-!
Verification development for the ProtAtlasViz data pipeline.

The definitions below are a shallow embedding of the two source modules:
`data_loader.py` (dictionary parsing, tissue/group resolution, aggregation)
and `app.py` (chart builders and the visualization callback).  Python strings
are Lean `String`s, pandas data frames are lists of typed rows, Python
insertion-ordered dictionaries are association lists with an
insert-or-update-in-place operation, and float expression values are `ℚ`
(the one float-analytic fact, the log2 round trip, is modelled over `ℝ`).
-/

/-- Models Python `str.lower()` (character-wise lowering). -/
def lowerS (s : String) : String := ⟨s.data.map Char.toLower⟩

/-- Models Python `str.strip()`: drop leading and trailing whitespace. -/
def trimS (s : String) : String :=
  ⟨((s.data.dropWhile Char.isWhitespace).reverse.dropWhile Char.isWhitespace).reverse⟩

/-- Models Python `line.startswith('#')`. -/
def startsWithHash (s : String) : Bool :=
  match s.data with
  | c :: _ => c == '#'
  | [] => false

/-- Models Python `line[1:]`. -/
def strTail (s : String) : String := ⟨s.data.drop 1⟩

/-- Models Python dict assignment `d[k] = v` on an insertion-ordered
dictionary kept as an association list: an existing key keeps its position
and receives the new value, a new key is appended at the end. -/
def dictInsert {β : Type} (d : List (String × β)) (k : String) (v : β) :
    List (String × β) :=
  if d.any (fun p => p.1 == k) then d.map (fun p => if p.1 = k then (k, v) else p)
  else d ++ [(k, v)]

/-- Models one iteration of the line loop of
`DataLoader.load_histology_dictionary` (data_loader.py lines 33-43): strip the
line; skip blanks; a `#` line opens (or reopens, resetting its tissue list)
the group named by the trimmed remainder; any other line is appended to the
current group's tissue list provided the current group name is truthy
(not absent and not the empty string). -/
def parseLine (st : List (String × List String) × Option String) (rawLine : String) :
    List (String × List String) × Option String :=
  let line := trimS rawLine
  if line.data.isEmpty then st
  else if startsWithHash line then
    (dictInsert st.1 (trimS (strTail line)) [], some (trimS (strTail line)))
  else
    match st.2 with
    | some g => if g ≠ "" then
        (st.1.map (fun p => if p.1 = g then (p.1, p.2 ++ [line]) else p), some g)
      else st
    | none => st

/-- Models `DataLoader.load_histology_dictionary` over the file's lines
(data_loader.py lines 27-46). -/
def load_histology_dictionary (lines : List String) : List (String × List String) :=
  (lines.foldl parseLine ([], none)).1

/-- The expression-table row type: one `(Gene, Gene name, Tissue, nTPM)` record
of `rna_tissue_consensus.tsv` (after aggregation, `tissue` holds the organ
group that the source renames into the `Tissue` column). -/
structure Row where
  gene : String
  geneName : String
  tissue : String
  nTPM : ℚ
deriving DecidableEq, Repr

/-- Models `pandas.unique` on a column: first-encounter order, no duplicates. -/
def uniqueList (l : List String) : List String :=
  l.foldl (fun acc x => if x ∈ acc then acc else acc ++ [x]) []

/-- `expression_data['Tissue'].unique()`, as used in data_loader.py
lines 57 and 96. -/
def uniqueTissues (rows : List Row) : List String := uniqueList (rows.map (·.tissue))

/-- Models `[t for t in all_tissues_in_data if t.lower() == tissue.lower()][0]`
(data_loader.py lines 63-64 and 103-104): the first table tissue matching
the dictionary tissue case-insensitively, if any. -/
def firstMatch (allTissues : List String) (tissue : String) : Option String :=
  allTissues.find? (fun t => lowerS t == lowerS tissue)

/-- The flattened sequence of `(matched table tissue, group)` pairs produced by
the nested loop `for group, tissues in self.tissue_groups.items(): for tissue
in tissues: ...` in dictionary file order, keeping only dictionary tissues
that match some table tissue. -/
def matchPairs (tissue_groups : List (String × List String)) (allTissues : List String) :
    List (String × String) :=
  (tissue_groups.map (fun gp =>
    (gp.2.filterMap (fun s => firstMatch allTissues s)).map (fun t => (t, gp.1)))).flatten

/-- Models `DataLoader.get_tissue_to_group_mapping` (data_loader.py
lines 48-69): each matched pair is written into the result dictionary in
file order, a later pair for the same tissue overwriting the earlier value. -/
def get_tissue_to_group_mapping (tissue_groups : List (String × List String))
    (allTissues : List String) : List (String × String) :=
  (matchPairs tissue_groups allTissues).foldl (fun acc p => dictInsert acc p.1 p.2) []

/-- The `ordered_tissues` list built by the dictionary loop of
`get_ordered_tissues_by_group` (data_loader.py lines 99-106): one entry per
matched dictionary entry, in file order, appended without a membership check. -/
def matchedTissues (tissue_groups : List (String × List String))
    (allTissues : List String) : List String :=
  (matchPairs tissue_groups allTissues).map Prod.fst

/-- Models the trailing loop of `get_ordered_tissues_by_group` (data_loader.py
lines 109-112): every table tissue not already in the ordered list is appended
and mapped to the group "Other". -/
def addMissing (allTissues : List String)
    (st : List String × List (String × String)) : List String × List (String × String) :=
  allTissues.foldl (fun p tissue =>
    if tissue ∈ p.1 then p else (p.1 ++ [tissue], dictInsert p.2 tissue ("Other"))) st

/-- Models `DataLoader.get_ordered_tissues_by_group` (data_loader.py
lines 82-114). -/
def get_ordered_tissues_by_group (tissue_groups : List (String × List String))
    (rows : List Row) : List String × List (String × String) :=
  addMissing (uniqueTissues rows)
    (matchedTissues tissue_groups (uniqueTissues rows),
     get_tissue_to_group_mapping tissue_groups (uniqueTissues rows))

/-- The value recorded by the last `(tissue, group)` assignment for `t` in a
sequence of dictionary writes (none if no pair has key `t`). -/
def lastVal (pairs : List (String × String)) (t : String) : Option String :=
  pairs.foldl (fun r p => if p.1 = t then some p.2 else r) none

/-- Models `DataLoader.get_expression_for_genes` (data_loader.py lines 71-80):
filter the table to rows whose gene name is in the selection. -/
def get_expression_for_genes (table : List Row) (gene_names : List String) : List Row :=
  table.filter (fun r => gene_names.any (fun g => g == r.geneName))

/-- Models `tissue_to_group.get(t, "Other")` / `.map(...).fillna('Other')`. -/
def groupOf (ttg : List (String × String)) (t : String) : String :=
  (ttg.lookup t).getD ("Other")

/-- The `(Gene, Gene name, Organ Group)` grouping key that
`aggregate_by_organ_group` groups by (data_loader.py line 126). -/
def rowKey (ttg : List (String × String)) (r : Row) : String × String × String :=
  (r.gene, r.geneName, groupOf ttg r.tissue)

/-- One step of grouping rows by their key: append the row's value to its
key's bucket, creating the bucket on first encounter. -/
def aggStep (ttg : List (String × String))
    (acc : List ((String × String × String) × List ℚ)) (r : Row) :
    List ((String × String × String) × List ℚ) :=
  if acc.any (fun p => decide (p.1 = rowKey ttg r)) then
    acc.map (fun p => if p.1 = rowKey ttg r then (p.1, p.2 ++ [r.nTPM]) else p)
  else acc ++ [(rowKey ttg r, [r.nTPM])]

/-- Arithmetic mean of a list of rationals. -/
def meanQ (vs : List ℚ) : ℚ := vs.sum / (vs.length : ℚ)

/-- Models `DataLoader.aggregate_by_organ_group` (data_loader.py
lines 116-128): assign each row's organ group (default "Other"), group by
`(Gene, Gene name, Organ Group)` and take the mean `nTPM`; the group lands in
the output's `Tissue` column. -/
def aggregate_by_organ_group (ttg : List (String × String)) (rows : List Row) :
    List Row :=
  (rows.foldl (aggStep ttg) []).map (fun p => ⟨p.1.1, p.1.2.1, p.1.2.2, meanQ p.2⟩)

/-- Insert a string into an already sorted list (used to model
`sorted(...)` on gene and tissue names). -/
def insertSorted (x : String) : List String → List String
  | [] => [x]
  | y :: ys => if x ≤ y then x :: y :: ys else y :: insertSorted x ys

/-- Models Python `sorted` on a list of strings. -/
def sortStrings (l : List String) : List String := l.foldr insertSorted []

/-- The process-wide state loaded once at startup by the `DataLoader`
(the expression table and the parsed histology dictionary), threaded
explicitly through the chart builders to express their frame condition. -/
structure SharedState where
  expression_data : List Row
  tissue_groups : List (String × List String)
deriving DecidableEq

/-- `[t for t in ordered_tissues if t in pivot_data.columns]`
(app.py line 129). -/
def availableTissues (ordered_tissues : List String) (data : List Row) : List String :=
  ordered_tissues.filter (fun t => data.any (fun r => r.tissue == t))

/-- Models the separator loop of `create_heatmap` (app.py lines 171-177):
walk the displayed columns with the running `current_group` (initially
`None`); whenever the column's group differs, emit a vline at `i - 0.5`. -/
def sepLoop (ttg : List (String × String)) : ℕ → Option String → List String → List ℚ
  | _, _, [] => []
  | i, cur, t :: rest =>
    if some (groupOf ttg t) = cur then sepLoop ttg (i + 1) cur rest
    else ((i : ℚ) - 1 / 2) :: sepLoop ttg (i + 1) (some (groupOf ttg t)) rest

/-- The chart description produced by `create_heatmap`: pivoted matrix
(genes sorted as pandas `pivot` sorts its index, columns in display order,
missing cells `none`), separator positions, and the dynamic size. -/
structure HeatmapFig where
  columns : List String
  genes : List String
  z : List (List (Option ℚ))
  separators : List ℚ
  log : Bool
  width : ℕ
  height : ℕ
deriving DecidableEq, Repr

/-- Models `create_heatmap` (app.py lines 122-206) under the preconditions
of its pandas calls: `data.pivot` (line 126) requires the (Gene name,
Tissue) pairs of `data` to be duplicate-free, and the hover loop requires
the displayed columns to be duplicate-free; when either fails the source
raises ValueError instead of returning a figure, which is modelled by
`create_heatmap_run` below.  The shared loader state and the caller's row
list are returned alongside the figure: the source mutates neither (it only
reads `data` and pivots it into a fresh frame). -/
def create_heatmap (shared : SharedState) (data : List Row)
    (ordered_tissues : List String) (tissue_to_group : List (String × String))
    (show_groups : Bool) (log_scale : Bool) :
    HeatmapFig × SharedState × List Row :=
  let cols := availableTissues ordered_tissues data
  let genes := sortStrings (uniqueList (data.map (·.geneName)))
  let z := genes.map (fun g => cols.map (fun t =>
    (data.find? (fun r => r.geneName == g && r.tissue == t)).map (·.nTPM)))
  let separators := if show_groups then sepLoop tissue_to_group 0 none cols else []
  (⟨cols, genes, z, separators, log_scale,
    max 800 (min 2000 (cols.length * 25 + 200)), max 600 (genes.length * 60)⟩,
   shared, data)

/-- Index of a tissue in the categorical order; tissues outside the
categories sort last, as pandas `Categorical` sorts their `NaN` codes last. -/
def tissueIdx (ordered : List String) (t : String) : ℕ :=
  (ordered.findIdx? (fun s => s == t)).getD ordered.length

/-- Insert a row into a list sorted by categorical tissue index. -/
def insertByTissue (ordered : List String) (r : Row) : List Row → List Row
  | [] => [r]
  | x :: xs =>
    if tissueIdx ordered r.tissue ≤ tissueIdx ordered x.tissue then r :: x :: xs
    else x :: insertByTissue ordered r xs

/-- Models `pd.Categorical(..., categories=ordered) ; sort_values('Tissue')`
(app.py lines 214-215 and 292-293). -/
def sortByTissue (ordered : List String) (rows : List Row) : List Row :=
  rows.foldr (insertByTissue ordered) []

/-- The chart description produced by `create_bar_chart`: one series per gene
(first-encounter order over the sorted data), each a list of
`(tissue, value)` points. -/
structure BarFig where
  series : List (String × List (String × ℚ))
  log : Bool
  width : ℕ
deriving DecidableEq, Repr

/-- Models `create_bar_chart` (app.py lines 209-284) under the precondition
of `pd.Categorical(..., categories=ordered_tissues)` (line 214), which
raises ValueError when the category list contains duplicates; the raising
invocation is modelled by `create_bar_chart_run` below.  State threading as
in `create_heatmap` (the source sorts a copy of `data`, app.py line 213). -/
def create_bar_chart (shared : SharedState) (data : List Row)
    (ordered_tissues : List String) (tissue_to_group : List (String × String))
    (log_scale : Bool) : BarFig × SharedState × List Row :=
  let sorted := sortByTissue ordered_tissues data
  let genes := uniqueList (sorted.map (·.geneName))
  let series := genes.map (fun g =>
    (g, (sorted.filter (fun r => r.geneName == g)).map (fun r => (r.tissue, r.nTPM))))
  (⟨series, log_scale,
    max 800 (min 2000 ((uniqueList (sorted.map (·.tissue))).length * 25 + 200))⟩,
   shared, data)

/-- The chart description produced by `create_box_plot`: one box series per
gene over its `(tissue, value)` points. -/
structure BoxFig where
  series : List (String × List (String × ℚ))
  log : Bool
  width : ℕ
deriving DecidableEq, Repr

/-- Models `create_box_plot` (app.py lines 287-349) under the precondition
of `pd.Categorical(..., categories=ordered_tissues)` (line 292), which
raises ValueError when the category list contains duplicates; the raising
invocation is modelled by `create_box_plot_run` below.  State threading as
in `create_heatmap` (the source sorts a copy of `data`, app.py line 291). -/
def create_box_plot (shared : SharedState) (data : List Row)
    (ordered_tissues : List String) (tissue_to_group : List (String × String))
    (log_scale : Bool) : BoxFig × SharedState × List Row :=
  let sorted := sortByTissue ordered_tissues data
  let genes := uniqueList (sorted.map (·.geneName))
  let series := genes.map (fun g =>
    (g, (sorted.filter (fun r => r.geneName == g)).map (fun r => (r.tissue, r.nTPM))))
  (⟨series, log_scale,
    max 800 (min 2000 ((uniqueList (sorted.map (·.tissue))).length * 25 + 200))⟩,
   shared, data)

/-- A built chart, tagged by visualization type. -/
inductive Chart where
  | heatmap : HeatmapFig → Chart
  | bar : BarFig → Chart
  | box : BoxFig → Chart
deriving DecidableEq, Repr

/-- The outcome of the `update_visualization` callback: one of the alert
banners of app.py lines 378-400 and 428, or a built chart. -/
inductive VizResult where
  | emptySelection : VizResult
  | selectionTooLarge : VizResult
  | noDataFound : VizResult
  | invalidVizType : VizResult
  | graph : Chart → VizResult
deriving DecidableEq, Repr

/-- Models the `update_visualization` callback (app.py lines 376-444).
The float transform `np.log2(x + 1)` applied on the log branch is abstracted
as the parameter `logFn : ℚ → ℚ`; its numeric round-trip property is verified
separately over `ℝ` (`logTransform` / `hoverOriginal`). -/
def update_visualization (logFn : ℚ → ℚ) (shared : SharedState)
    (selected_genes : List String) (grouping viz_type log_scale : String) : VizResult :=
  if selected_genes.isEmpty then VizResult.emptySelection
  else if selected_genes.length > 10 then VizResult.selectionTooLarge
  else
    let expression_data := get_expression_for_genes shared.expression_data selected_genes
    if expression_data.isEmpty then VizResult.noDataFound
    else
      let otg := get_ordered_tissues_by_group shared.tissue_groups shared.expression_data
      let st1 :=
        if grouping == "organ" then
          let agg := aggregate_by_organ_group
            (get_tissue_to_group_mapping shared.tissue_groups
              (uniqueTissues shared.expression_data)) expression_data
          let ord := sortStrings (uniqueList (agg.map (·.tissue)))
          (agg, ord, ord.map (fun t => (t, t)))
        else (expression_data, otg.1, otg.2)
      let data2 := if log_scale == "log" then
          st1.1.map (fun r => { r with nTPM := logFn r.nTPM }) else st1.1
      if viz_type == "heatmap" then
        VizResult.graph (Chart.heatmap (create_heatmap shared data2 st1.2.1 st1.2.2
          (grouping == "tissue") (log_scale == "log")).1)
      else if viz_type == "bar" then
        VizResult.graph (Chart.bar (create_bar_chart shared data2 st1.2.1 st1.2.2
          (log_scale == "log")).1)
      else if viz_type == "box" then
        VizResult.graph (Chart.box (create_box_plot shared data2 st1.2.1 st1.2.2
          (log_scale == "log")).1)
      else VizResult.invalidVizType

/-- The per-value log transform `np.log2(nTPM + 1)` (app.py line 415),
modelled over `ℝ`. -/
noncomputable def logTransform (v : ℝ) : ℝ := Real.logb 2 (v + 1)

/-- The original value recovered for hover text, `2**value - 1`
(app.py line 144 and line 224), modelled over `ℝ`. -/
noncomputable def hoverOriginal (w : ℝ) : ℝ := (2 : ℝ) ^ w - 1

/-- The `ValueError` that pandas raises inside the chart builders:
`data.pivot` on a duplicate (Gene name, Tissue) pair (app.py line 126),
the heatmap hover loop on a duplicated displayed column (`pd.isna` on a
Series is ambiguous), and `pd.Categorical` on duplicate categories
(app.py lines 214 and 292). -/
inductive PandasError where
  | valueError : PandasError
deriving DecidableEq, Repr

/-- Models a `create_heatmap` invocation including the exceptions the source
raises before a figure exists: `data.pivot` (app.py line 126) raises when
some (Gene name, Tissue) pair occurs in more than one row, and the hover
loop (lines 134-148) raises when the displayed columns contain a duplicate
(a duplicated entry of `ordered_tissues` survives the `available_tissues`
filter, so `pivot_data.loc[gene, tissue]` is a Series and
`pd.isna(value)` has no single truth value).  On success the figure is the
chart description computed by `create_heatmap`. -/
def create_heatmap_run (shared : SharedState) (data : List Row)
    (ordered_tissues : List String) (tissue_to_group : List (String × String))
    (show_groups : Bool) (log_scale : Bool) :
    Except PandasError HeatmapFig × SharedState × List Row :=
  if (data.map (fun r => (r.geneName, r.tissue))).Nodup ∧
      (availableTissues ordered_tissues data).Nodup then
    (Except.ok (create_heatmap shared data ordered_tissues tissue_to_group
      show_groups log_scale).1, shared, data)
  else (Except.error PandasError.valueError, shared, data)

/-- Models a `create_bar_chart` invocation including the exception of
`pd.Categorical(..., categories=ordered_tissues)` (app.py line 214), which
raises when the category list contains a duplicate; on success the figure
is the chart description computed by `create_bar_chart`. -/
def create_bar_chart_run (shared : SharedState) (data : List Row)
    (ordered_tissues : List String) (tissue_to_group : List (String × String))
    (log_scale : Bool) : Except PandasError BarFig × SharedState × List Row :=
  if ordered_tissues.Nodup then
    (Except.ok (create_bar_chart shared data ordered_tissues tissue_to_group
      log_scale).1, shared, data)
  else (Except.error PandasError.valueError, shared, data)

/-- Models a `create_box_plot` invocation including the exception of
`pd.Categorical(..., categories=ordered_tissues)` (app.py line 292), as in
`create_bar_chart_run`. -/
def create_box_plot_run (shared : SharedState) (data : List Row)
    (ordered_tissues : List String) (tissue_to_group : List (String × String))
    (log_scale : Bool) : Except PandasError BoxFig × SharedState × List Row :=
  if ordered_tissues.Nodup then
    (Except.ok (create_box_plot shared data ordered_tissues tissue_to_group
      log_scale).1, shared, data)
  else (Except.error PandasError.valueError, shared, data)

/-- The (rows, tissue order, tissue-to-group) triple that
`update_visualization` hands to the selected chart builder (app.py
lines 402-415): the resolver's output, replaced by the organ aggregation
when grouping is "organ", with the log transform (abstracted as `logFn`)
applied to the values on the log branch. -/
def chart_inputs (logFn : ℚ → ℚ) (shared : SharedState)
    (selected_genes : List String) (grouping log_scale : String) :
    List Row × List String × List (String × String) :=
  let expression_data := get_expression_for_genes shared.expression_data selected_genes
  let otg := get_ordered_tissues_by_group shared.tissue_groups shared.expression_data
  let st1 :=
    if grouping == "organ" then
      let agg := aggregate_by_organ_group
        (get_tissue_to_group_mapping shared.tissue_groups
          (uniqueTissues shared.expression_data)) expression_data
      let ord := sortStrings (uniqueList (agg.map (·.tissue)))
      (agg, ord, ord.map (fun t => (t, t)))
    else (expression_data, otg.1, otg.2)
  if log_scale == "log" then
    (st1.1.map (fun r => { r with nTPM := logFn r.nTPM }), st1.2.1, st1.2.2)
  else st1

/-- Models the `update_visualization` callback (app.py lines 376-444)
including propagation of the pandas exceptions of the chart builders: the
guards and dispatch of `update_visualization`, with each builder replaced by
its `_run` form; an uncaught ValueError escapes the callback and no chart is
returned. -/
def update_visualization_run (logFn : ℚ → ℚ) (shared : SharedState)
    (selected_genes : List String) (grouping viz_type log_scale : String) :
    Except PandasError VizResult :=
  if selected_genes.isEmpty then Except.ok VizResult.emptySelection
  else if selected_genes.length > 10 then Except.ok VizResult.selectionTooLarge
  else
    if (get_expression_for_genes shared.expression_data selected_genes).isEmpty then
      Except.ok VizResult.noDataFound
    else
      let inputs := chart_inputs logFn shared selected_genes grouping log_scale
      if viz_type == "heatmap" then
        ((create_heatmap_run shared inputs.1 inputs.2.1 inputs.2.2
          (grouping == "tissue") (log_scale == "log")).1).map
          (fun fig => VizResult.graph (Chart.heatmap fig))
      else if viz_type == "bar" then
        ((create_bar_chart_run shared inputs.1 inputs.2.1 inputs.2.2
          (log_scale == "log")).1).map
          (fun fig => VizResult.graph (Chart.bar fig))
      else if viz_type == "box" then
        ((create_box_plot_run shared inputs.1 inputs.2.1 inputs.2.2
          (log_scale == "log")).1).map
          (fun fig => VizResult.graph (Chart.box fig))
      else Except.ok VizResult.invalidVizType

/-! ## Association-list dictionary lemmas -/

theorem lookup_cons_head {β : Type} (key : String) (b : β) (rest : List (String × β)) :
    List.lookup key ((key, b) :: rest) = some b := by
  simp [List.lookup]

theorem lookup_cons_tail {β : Type} (t key : String) (b : β) (rest : List (String × β))
    (h : t ≠ key) : List.lookup t ((key, b) :: rest) = List.lookup t rest := by
  have hb : (t == key) = false := by simp [h]
  simp [List.lookup, hb]

theorem lookup_map_replace_ne {β : Type} (d : List (String × β)) (k : String) (v : β)
    (t : String) (h : t ≠ k) :
    (d.map (fun p => if p.1 = k then (k, v) else p)).lookup t = d.lookup t := by
  induction d with
  | nil => rfl
  | cons p rest ih =>
    by_cases hp : p.1 = k
    · rw [List.map_cons, if_pos hp, lookup_cons_tail t k v _ h, ih,
        show p = (p.1, p.2) from rfl,
        lookup_cons_tail t p.1 p.2 rest (fun he => h (he.trans hp))]
    · rw [List.map_cons, if_neg hp]
      by_cases ht : t = p.1
      · subst ht
        rw [show p = (p.1, p.2) from rfl, lookup_cons_head, lookup_cons_head]
      · rw [show p = (p.1, p.2) from rfl, lookup_cons_tail t p.1 p.2 _ ht,
          lookup_cons_tail t p.1 p.2 rest ht, ih]

theorem lookup_map_replace_eq {β : Type} (d : List (String × β)) (k : String) (v : β)
    (h : d.any (fun p => p.1 == k) = true) :
    (d.map (fun p => if p.1 = k then (k, v) else p)).lookup k = some v := by
  induction d with
  | nil => simp at h
  | cons p rest ih =>
    by_cases hp : p.1 = k
    · rw [List.map_cons, if_pos hp, lookup_cons_head]
    · have h' : rest.any (fun p => p.1 == k) = true := by
        rcases List.any_eq_true.mp h with ⟨q, hq, hqk⟩
        rcases List.mem_cons.mp hq with hq1 | hq2
        · exact absurd (show p.1 = k by have hpk := hq1 ▸ hqk; simpa using hpk) hp
        · exact List.any_eq_true.mpr ⟨q, hq2, hqk⟩
      rw [List.map_cons, if_neg hp, show p = (p.1, p.2) from rfl,
        lookup_cons_tail k p.1 p.2 _ (fun hkk => hp hkk.symm)]
      exact ih h'

theorem lookup_eq_none_of_any_eq_false {β : Type} (d : List (String × β)) (k : String)
    (h : d.any (fun p => p.1 == k) = false) : d.lookup k = none := by
  induction d with
  | nil => rfl
  | cons p rest ih =>
    simp only [List.any_cons, Bool.or_eq_false_iff] at h
    have hp : p.1 ≠ k := by simpa using h.1
    rw [show p = (p.1, p.2) from rfl, lookup_cons_tail k p.1 p.2 rest
      (fun hkk => hp hkk.symm)]
    exact ih h.2

theorem lookup_append_assoc {β : Type} (d l : List (String × β)) (t : String) :
    (d ++ l).lookup t = (d.lookup t).or (l.lookup t) := by
  induction d with
  | nil => simp
  | cons p rest ih =>
    by_cases ht : t = p.1
    · subst ht
      rw [List.cons_append, show p = (p.1, p.2) from rfl, lookup_cons_head,
        lookup_cons_head]
      rfl
    · rw [List.cons_append, show p = (p.1, p.2) from rfl,
        lookup_cons_tail t p.1 p.2 _ ht, lookup_cons_tail t p.1 p.2 rest ht, ih]

/-- Dictionary write followed by a read: the written key reads back the new
value, any other key is unaffected. -/
theorem lookup_dictInsert {β : Type} (d : List (String × β)) (k : String) (v : β)
    (t : String) :
    (dictInsert d k v).lookup t = if t = k then some v else d.lookup t := by
  unfold dictInsert
  by_cases ha : d.any (fun p => p.1 == k) = true
  · rw [if_pos ha]
    by_cases ht : t = k
    · subst ht; rw [if_pos rfl]; exact lookup_map_replace_eq d t v ha
    · rw [if_neg ht]; exact lookup_map_replace_ne d k v t ht
  · have ha' : d.any (fun p => p.1 == k) = false := by
      cases hb : d.any (fun p => p.1 == k) with
      | true => exact absurd hb ha
      | false => rfl
    rw [if_neg ha, lookup_append_assoc]
    have hnone := lookup_eq_none_of_any_eq_false d k ha'
    by_cases ht : t = k
    · subst ht
      rw [hnone, lookup_cons_head, if_pos rfl]
      rfl
    · rw [lookup_cons_tail t k v [] ht, if_neg ht]
      cases hd : d.lookup t with
      | none => rfl
      | some b => rfl

theorem lastVal_or_init (pairs : List (String × String)) (t : String)
    (init : Option String) :
    pairs.foldl (fun r p => if p.1 = t then some p.2 else r) init =
      (lastVal pairs t).or init := by
  induction pairs generalizing init with
  | nil => cases init <;> simp [lastVal]
  | cons p rest ih =>
    simp only [lastVal, List.foldl_cons]
    by_cases hp : p.1 = t
    · simp only [if_pos hp]
      rw [ih (some p.2), Option.or_assoc]
      rfl
    · simp only [if_neg hp]
      rw [ih, ih none]
      simp

theorem lastVal_cons (p : String × String) (rest : List (String × String)) (t : String) :
    lastVal (p :: rest) t =
      (lastVal rest t).or (if p.1 = t then some p.2 else none) := by
  simp only [lastVal, List.foldl_cons]
  by_cases hp : p.1 = t
  · simp only [if_pos hp]
    exact lastVal_or_init rest t (some p.2)
  · simp only [if_neg hp]
    exact lastVal_or_init rest t none

theorem lastVal_eq_none_iff (pairs : List (String × String)) (t : String) :
    lastVal pairs t = none ↔ ∀ p ∈ pairs, p.1 ≠ t := by
  induction pairs with
  | nil => simp [lastVal]
  | cons p rest ih =>
    rw [lastVal_cons]
    by_cases hp : p.1 = t
    · simp [hp, Option.or_eq_none]
    · simp [hp, Option.or_eq_none, ih]

theorem lookup_foldl_dictInsert (pairs : List (String × String))
    (acc : List (String × String)) (t : String) :
    (pairs.foldl (fun a p => dictInsert a p.1 p.2) acc).lookup t =
      (lastVal pairs t).or (acc.lookup t) := by
  induction pairs generalizing acc with
  | nil => simp [lastVal]
  | cons p rest ih =>
    rw [List.foldl_cons, ih, lastVal_cons]
    by_cases hp : p.1 = t
    · rw [lookup_dictInsert, if_pos hp.symm]
      simp [hp, Option.or_assoc]
    · rw [lookup_dictInsert, if_neg (fun h => hp h.symm)]
      simp [hp]

/-! ## Claim C2 -/

/-- C2 is false on the code: with dictionary entries G1: liver and G2: Liver
both matching the table tissue liver, the mapping records G2 (the later
entry), not G1 (the earliest). -/
theorem C2_counterexample :
    (get_tissue_to_group_mapping [(("G1"), [("liver")]), (("G2"), [("Liver")])]
      [("liver")]).lookup ("liver") = some ("G2") ∧ ("G2" : String) ≠ ("G1") := by
  constructor
  · decide
  · decide

/-- C2 (amended): when several dictionary tissue entries match the same
expression-table tissue case-insensitively, the tissue-to-group mapping
records the group of the LATEST matching entry in dictionary file order;
earlier group assignments for that tissue are overwritten.  Formally, the
lookup of any tissue equals the last matching `(tissue, group)` write in
the flattened file-order match sequence. -/
theorem C2_latest_match_wins (tissue_groups : List (String × List String))
    (allTissues : List String) (t : String) :
    (get_tissue_to_group_mapping tissue_groups allTissues).lookup t =
      lastVal (matchPairs tissue_groups allTissues) t := by
  unfold get_tissue_to_group_mapping
  rw [lookup_foldl_dictInsert]
  simp [List.lookup]

/-! ## uniqueList and addMissing lemmas -/

theorem mem_uniqueList_foldl (l : List String) (acc : List String) (t : String) :
    t ∈ l.foldl (fun acc x => if x ∈ acc then acc else acc ++ [x]) acc ↔
      t ∈ acc ∨ t ∈ l := by
  induction l generalizing acc with
  | nil => simp
  | cons x rest ih =>
    rw [List.foldl_cons]
    by_cases hx : x ∈ acc
    · rw [if_pos hx, ih]
      constructor
      · rintro (h | h)
        · exact Or.inl h
        · exact Or.inr (List.mem_cons_of_mem x h)
      · rintro (h | h)
        · exact Or.inl h
        · rcases List.mem_cons.mp h with h1 | h2
          · exact Or.inl (h1 ▸ hx)
          · exact Or.inr h2
    · rw [if_neg hx, ih]
      simp only [List.mem_append, List.mem_singleton, List.mem_cons]
      tauto

theorem mem_uniqueList (l : List String) (t : String) :
    t ∈ uniqueList l ↔ t ∈ l := by
  unfold uniqueList
  rw [mem_uniqueList_foldl]
  simp

theorem nodup_uniqueList_foldl (l : List String) (acc : List String)
    (h : acc.Nodup) :
    (l.foldl (fun acc x => if x ∈ acc then acc else acc ++ [x]) acc).Nodup := by
  induction l generalizing acc with
  | nil => exact h
  | cons x rest ih =>
    rw [List.foldl_cons]
    by_cases hx : x ∈ acc
    · rw [if_pos hx]; exact ih acc h
    · rw [if_neg hx]
      exact ih (acc ++ [x]) (by simp [List.nodup_append, h, hx])

theorem nodup_uniqueList (l : List String) : (uniqueList l).Nodup :=
  nodup_uniqueList_foldl l [] List.nodup_nil

theorem addMissing_nil (st : List String × List (String × String)) :
    addMissing [] st = st := rfl

theorem addMissing_cons (x : String) (rest : List String)
    (st : List String × List (String × String)) :
    addMissing (x :: rest) st =
      addMissing rest
        (if x ∈ st.1 then st else (st.1 ++ [x], dictInsert st.2 x ("Other"))) := rfl

theorem mem_addMissing_fst (allTissues : List String) (l : List String)
    (d : List (String × String)) (t : String) :
    t ∈ (addMissing allTissues (l, d)).1 ↔ t ∈ l ∨ t ∈ allTissues := by
  induction allTissues generalizing l d with
  | nil => simp [addMissing_nil]
  | cons x rest ih =>
    rw [addMissing_cons]
    by_cases hx : x ∈ l
    · rw [if_pos hx, ih]
      simp only [List.mem_cons]
      constructor
      · rintro (h | h)
        · exact Or.inl h
        · exact Or.inr (Or.inr h)
      · rintro (h | h | h)
        · exact Or.inl h
        · exact Or.inl (h ▸ hx)
        · exact Or.inr h
    · rw [if_neg hx]
      simp only []
      rw [ih]
      simp only [List.mem_append, List.mem_singleton, List.mem_cons]
      tauto

theorem nodup_addMissing_fst (allTissues : List String) (l : List String)
    (d : List (String × String)) (h : l.Nodup) :
    (addMissing allTissues (l, d)).1.Nodup := by
  induction allTissues generalizing l d with
  | nil => exact h
  | cons x rest ih =>
    rw [addMissing_cons]
    by_cases hx : x ∈ l
    · rw [if_pos hx]; exact ih l d h
    · rw [if_neg hx]
      exact ih (l ++ [x]) _ (by simp [List.nodup_append, h, hx])

theorem lookup_addMissing_not_mem (allTissues : List String) (l : List String)
    (d : List (String × String)) (t : String) (ht : t ∉ allTissues) :
    (addMissing allTissues (l, d)).2.lookup t = d.lookup t := by
  induction allTissues generalizing l d with
  | nil => rfl
  | cons x rest ih =>
    have hxt : t ≠ x := fun he => ht (he ▸ List.mem_cons_self x rest)
    have htr : t ∉ rest := fun hr => ht (List.mem_cons_of_mem x hr)
    rw [addMissing_cons]
    by_cases hx : x ∈ l
    · rw [if_pos hx]; exact ih l d htr
    · rw [if_neg hx]
      rw [ih (l ++ [x]) _ htr, lookup_dictInsert, if_neg hxt]

theorem lookup_addMissing_other (allTissues : List String) (l : List String)
    (d : List (String × String)) (t : String) (hnd : allTissues.Nodup)
    (ht : t ∈ allTissues) (hl : t ∉ l) (hd : d.lookup t = none) :
    (addMissing allTissues (l, d)).2.lookup t = some ("Other") := by
  induction allTissues generalizing l d with
  | nil => simp at ht
  | cons x rest ih =>
    rw [addMissing_cons]
    by_cases hxt : t = x
    · subst hxt
      rw [if_neg hl]
      have htr : t ∉ rest := (List.nodup_cons.mp hnd).1
      rw [lookup_addMissing_not_mem rest _ _ t htr, lookup_dictInsert, if_pos rfl]
    · have htr : t ∈ rest := by
        rcases List.mem_cons.mp ht with h1 | h2
        · exact absurd h1 hxt
        · exact h2
      by_cases hx : x ∈ l
      · rw [if_pos hx]
        exact ih l d (List.nodup_cons.mp hnd).2 htr hl hd
      · rw [if_neg hx]
        refine ih (l ++ [x]) _ (List.nodup_cons.mp hnd).2 htr ?_ ?_
        · simp only [List.mem_append, List.mem_singleton]
          rintro (h1 | h2)
          · exact hl h1
          · exact hxt h2
        · rw [lookup_dictInsert, if_neg hxt]
          exact hd

theorem lookup_addMissing_isSome (allTissues : List String) (l : List String)
    (d : List (String × String)) (t : String)
    (hinv : ∀ s ∈ l, (d.lookup s).isSome = true) (ht : t ∈ allTissues) :
    ((addMissing allTissues (l, d)).2.lookup t).isSome = true := by
  induction allTissues generalizing l d with
  | nil => simp at ht
  | cons x rest ih =>
    rw [addMissing_cons]
    by_cases hx : x ∈ l
    · rw [if_pos hx]
      by_cases htr : t ∈ rest
      · exact ih l d hinv htr
      · have hxt : t = x := by
          rcases List.mem_cons.mp ht with h1 | h2
          · exact h1
          · exact absurd h2 htr
        rw [lookup_addMissing_not_mem rest l d t htr]
        exact hinv t (hxt ▸ hx)
    · rw [if_neg hx]
      have hinv' : ∀ s ∈ l ++ [x],
          ((dictInsert d x ("Other")).lookup s).isSome = true := by
        intro s hs
        rw [lookup_dictInsert]
        by_cases hsx : s = x
        · rw [if_pos hsx]; rfl
        · rw [if_neg hsx]
          rcases List.mem_append.mp hs with h1 | h2
          · exact hinv s h1
          · exact absurd (by simpa using h2) hsx
      by_cases htr : t ∈ rest
      · exact ih (l ++ [x]) _ hinv' htr
      · have hxt : t = x := by
          rcases List.mem_cons.mp ht with h1 | h2
          · exact h1
          · exact absurd h2 htr
        rw [lookup_addMissing_not_mem rest _ _ t htr, lookup_dictInsert,
          if_pos hxt]
        rfl

/-! ## matchPairs membership -/

theorem mem_matchPairs_iff (tissue_groups : List (String × List String))
    (allTissues : List String) (p : String × String) :
    p ∈ matchPairs tissue_groups allTissues ↔
      ∃ gp ∈ tissue_groups, p.2 = gp.1 ∧
        ∃ s ∈ gp.2, firstMatch allTissues s = some p.1 := by
  unfold matchPairs
  simp only [List.mem_flatten, List.mem_map, List.mem_filterMap]
  constructor
  · rintro ⟨lst, ⟨gp, hgp, rfl⟩, hp⟩
    rcases List.mem_map.mp hp with ⟨t, htf, rfl⟩
    rcases List.mem_filterMap.mp htf with ⟨s, hs, hfm⟩
    exact ⟨gp, hgp, rfl, s, hs, hfm⟩
  · rintro ⟨gp, hgp, h2, s, hs, hfm⟩
    refine ⟨_, ⟨gp, hgp, rfl⟩, ?_⟩
    rcases p with ⟨p1, p2⟩
    simp only at h2
    subst h2
    exact List.mem_map.mpr ⟨p1, List.mem_filterMap.mpr ⟨s, hs, hfm⟩, rfl⟩

theorem firstMatch_mem (allTissues : List String) (s t : String)
    (h : firstMatch allTissues s = some t) : t ∈ allTissues :=
  List.mem_of_find?_eq_some h

theorem matchedTissues_subset (tissue_groups : List (String × List String))
    (allTissues : List String) (t : String)
    (h : t ∈ matchedTissues tissue_groups allTissues) : t ∈ allTissues := by
  unfold matchedTissues at h
  rcases List.mem_map.mp h with ⟨p, hp, rfl⟩
  rcases (mem_matchPairs_iff tissue_groups allTissues p).mp hp with
    ⟨gp, _, _, s, _, hfm⟩
  exact firstMatch_mem allTissues s p.1 hfm

theorem lookup_ttg_eq_none_iff (tissue_groups : List (String × List String))
    (allTissues : List String) (t : String) :
    (get_tissue_to_group_mapping tissue_groups allTissues).lookup t = none ↔
      t ∉ matchedTissues tissue_groups allTissues := by
  rw [C2_latest_match_wins, lastVal_eq_none_iff]
  unfold matchedTissues
  constructor
  · intro h hmem
    rcases List.mem_map.mp hmem with ⟨p, hp, rfl⟩
    exact h p hp rfl
  · intro h p hp hpt
    exact h (List.mem_map.mpr ⟨p, hp, hpt⟩)

/-! ## Claim C1 -/

/-- C1 is false on the code: the dictionary loop of
`get_ordered_tissues_by_group` appends a matched table tissue once per
matching dictionary entry, without a membership check, so two entries
matching "liver" produce the ordered list [liver, liver] — not a
permutation of the single distinct tissue. -/
theorem C1_counterexample :
    (get_ordered_tissues_by_group [(("G1"), [("liver"), ("Liver")])]
      [⟨("g"), ("g"), ("liver"), 1⟩]).1 = [("liver"), ("liver")] ∧
    ¬ (get_ordered_tissues_by_group [(("G1"), [("liver"), ("Liver")])]
      [⟨("g"), ("g"), ("liver"), 1⟩]).1.Nodup := by
  constructor
  · decide
  · decide

/-- C1 (amended): `get_ordered_tissues_by_group` returns an ordered tissue
list whose members are exactly the table's distinct tissues, and a
tissue-to-group mapping that is total over the distinct tissues, with every
tissue matched by no dictionary entry mapped to the literal group "Other".
The ordered list can repeat a tissue matched by several dictionary entries;
it is duplicate-free — hence a permutation of the distinct tissues — exactly
under the proviso that no two dictionary entries match the same table
tissue. -/
theorem C1_resolver_amended (tissue_groups : List (String × List String))
    (rows : List Row) :
    (∀ t, t ∈ (get_ordered_tissues_by_group tissue_groups rows).1 ↔
      t ∈ uniqueTissues rows) ∧
    (∀ t ∈ uniqueTissues rows,
      (((get_ordered_tissues_by_group tissue_groups rows).2).lookup t).isSome = true) ∧
    (∀ t ∈ uniqueTissues rows,
      t ∉ matchedTissues tissue_groups (uniqueTissues rows) →
      ((get_ordered_tissues_by_group tissue_groups rows).2).lookup t =
        some ("Other")) ∧
    ((matchedTissues tissue_groups (uniqueTissues rows)).Nodup →
      (get_ordered_tissues_by_group tissue_groups rows).1.Nodup) := by
  refine ⟨?_, ?_, ?_, ?_⟩
  · intro t
    unfold get_ordered_tissues_by_group
    rw [mem_addMissing_fst]
    constructor
    · rintro (h | h)
      · exact matchedTissues_subset tissue_groups (uniqueTissues rows) t h
      · exact h
    · exact Or.inr
  · intro t ht
    unfold get_ordered_tissues_by_group
    refine lookup_addMissing_isSome _ _ _ t ?_ ht
    intro s hs
    have hn := (lookup_ttg_eq_none_iff tissue_groups (uniqueTissues rows) s)
    cases hv : (get_tissue_to_group_mapping tissue_groups
        (uniqueTissues rows)).lookup s with
    | some b => rfl
    | none => exact absurd hs (hn.mp hv)
  · intro t ht hnm
    unfold get_ordered_tissues_by_group
    refine lookup_addMissing_other _ _ _ t (nodup_uniqueList _) ht hnm ?_
    exact (lookup_ttg_eq_none_iff tissue_groups (uniqueTissues rows) t).mpr hnm
  · intro hnd
    unfold get_ordered_tissues_by_group
    exact nodup_addMissing_fst _ _ _ hnd

/-! ## Parser lemmas -/

theorem str_data_isEmpty_iff (s : String) : s.data.isEmpty = true ↔ s = "" := by
  cases s with
  | mk data =>
    constructor
    · intro h
      have : data = [] := by simpa [List.isEmpty_iff] using h
      simp [this]
    · intro h
      have : data = [] := by
        have := congrArg String.data h
        simpa using this
      simp [this]

theorem parseLine_blank (st : List (String × List String) × Option String)
    (l : String) (h : trimS l = "") : parseLine st l = st := by
  have hb : (trimS l).data.isEmpty = true := (str_data_isEmpty_iff (trimS l)).mpr h
  simp [parseLine, hb]

theorem startsWithHash_ne_empty (s : String) (h : startsWithHash s = true) :
    s.data.isEmpty = false := by
  cases hd : s.data with
  | nil => rw [startsWithHash, hd] at h; exact absurd h (by simp)
  | cons c cs => rfl

theorem parseLine_header (st : List (String × List String) × Option String)
    (l : String) (h : startsWithHash (trimS l) = true) :
    parseLine st l = (dictInsert st.1 (trimS (strTail (trimS l))) [],
      some (trimS (strTail (trimS l)))) := by
  have hne : (trimS l).data.isEmpty = false := startsWithHash_ne_empty _ h
  simp [parseLine, hne, h]

theorem parseLine_tissue (d : List (String × List String)) (g : String)
    (l : String) (hg : g ≠ "") (h1 : trimS l ≠ "")
    (h2 : startsWithHash (trimS l) = false) :
    parseLine (d, some g) l =
      (d.map (fun p => if p.1 = g then (p.1, p.2 ++ [trimS l]) else p), some g) := by
  have hne : (trimS l).data.isEmpty = false := by
    cases hb : (trimS l).data.isEmpty with
    | true => exact absurd ((str_data_isEmpty_iff (trimS l)).mp hb) h1
    | false => rfl
  simp [parseLine, hne, h2, hg]

theorem parseLine_nonheader_none (d : List (String × List String)) (l : String)
    (h : startsWithHash (trimS l) = false) : parseLine (d, none) l = (d, none) := by
  cases hb : (trimS l).data.isEmpty with
  | true => simp [parseLine, hb]
  | false => simp [parseLine, hb, h]

theorem parseLine_nonheader_emptyCur (d : List (String × List String)) (l : String)
    (h : startsWithHash (trimS l) = false) :
    parseLine (d, some "") l = (d, some "") := by
  cases hb : (trimS l).data.isEmpty with
  | true => simp [parseLine, hb]
  | false => simp [parseLine, hb, h]

theorem parseLine_init (l : String) (h : startsWithHash (trimS l) = false) :
    parseLine ([], none) l = ([], none) :=
  parseLine_nonheader_none [] l h

theorem foldl_parseLine_no_header (lines : List String)
    (h : ∀ l ∈ lines, startsWithHash (trimS l) = false) :
    lines.foldl parseLine ([], none) = ([], none) := by
  induction lines with
  | nil => rfl
  | cons l rest ih =>
    rw [List.foldl_cons, parseLine_init l (h l (List.mem_cons_self l rest))]
    exact ih (fun x hx => h x (List.mem_cons_of_mem l hx))

theorem map_fst_replace {β : Type} (d : List (String × β)) (k : String) (v : β) :
    (d.map (fun p => if p.1 = k then (k, v) else p)).map Prod.fst =
      d.map Prod.fst := by
  induction d with
  | nil => rfl
  | cons p rest ih =>
    by_cases hp : p.1 = k
    · simp [hp, ih]
    · simp [hp, ih]

theorem map_fst_append_tissue (d : List (String × List String)) (g : String)
    (vs : List String) :
    (d.map (fun p => if p.1 = g then (p.1, p.2 ++ vs) else p)).map Prod.fst =
      d.map Prod.fst := by
  induction d with
  | nil => rfl
  | cons p rest ih =>
    by_cases hp : p.1 = g
    · simp [hp, ih]
    · simp [hp, ih]

theorem mem_keys_dictInsert {β : Type} (d : List (String × β)) (k : String) (v : β) :
    k ∈ (dictInsert d k v).map Prod.fst := by
  unfold dictInsert
  by_cases ha : d.any (fun p => p.1 == k) = true
  · rw [if_pos ha, map_fst_replace]
    rcases List.any_eq_true.mp ha with ⟨p, hp, hpk⟩
    exact List.mem_map.mpr ⟨p, hp, by simpa using hpk⟩
  · rw [if_neg ha]
    simp

theorem keys_dictInsert_of_mem {β : Type} (d : List (String × β)) (k : String)
    (v : β) (h : k ∈ d.map Prod.fst) :
    (dictInsert d k v).map Prod.fst = d.map Prod.fst := by
  unfold dictInsert
  have ha : d.any (fun p => p.1 == k) = true := by
    rcases List.mem_map.mp h with ⟨p, hp, hfst⟩
    exact List.any_eq_true.mpr ⟨p, hp, by simp [hfst]⟩
  rw [if_pos ha, map_fst_replace]

theorem mem_keys_parseLine (st : List (String × List String) × Option String)
    (l : String) (k : String) (h : k ∈ st.1.map Prod.fst) :
    k ∈ (parseLine st l).1.map Prod.fst := by
  cases hb : (trimS l).data.isEmpty with
  | true =>
    rw [parseLine_blank st l ((str_data_isEmpty_iff (trimS l)).mp hb)]
    exact h
  | false =>
    cases hh : startsWithHash (trimS l) with
    | true =>
      rw [parseLine_header st l hh]
      by_cases hk : k = trimS (strTail (trimS l))
      · rw [hk]; exact mem_keys_dictInsert st.1 _ []
      · unfold dictInsert
        by_cases ha : st.1.any (fun p => p.1 == trimS (strTail (trimS l))) = true
        · rw [if_pos ha, map_fst_replace]; exact h
        · rw [if_neg ha]; simp only [List.map_append, List.mem_append]
          exact Or.inl h
    | false =>
      rcases st with ⟨d, cur⟩
      cases cur with
      | none =>
        rw [parseLine_nonheader_none d l hh]
        exact h
      | some g =>
        by_cases hg : g = ""
        · rw [hg, parseLine_nonheader_emptyCur d l hh]
          exact h
        · have h1 : trimS l ≠ "" := fun he =>
            by rw [(str_data_isEmpty_iff (trimS l)).mpr he] at hb; exact absurd hb (by simp)
          rw [parseLine_tissue d g l hg h1 hh]
          have hfst := map_fst_append_tissue d g [trimS l]
          dsimp only
          rw [hfst]
          exact h

theorem mem_keys_foldl_parseLine (lines : List String)
    (st : List (String × List String) × Option String) (k : String)
    (h : k ∈ st.1.map Prod.fst) :
    k ∈ (lines.foldl parseLine st).1.map Prod.fst := by
  induction lines generalizing st with
  | nil => exact h
  | cons l rest ih =>
    rw [List.foldl_cons]
    exact ih (parseLine st l) (mem_keys_parseLine st l k h)

theorem foldl_parseLine_tissues (ts : List String) (d : List (String × List String))
    (g : String) (hg : g ≠ "")
    (hts : ∀ l ∈ ts, trimS l ≠ "" ∧ startsWithHash (trimS l) = false) :
    ts.foldl parseLine (d, some g) =
      (d.map (fun p => if p.1 = g then (p.1, p.2 ++ ts.map trimS) else p), some g) := by
  induction ts generalizing d with
  | nil =>
    simp only [List.foldl_nil, List.map_nil]
    have he : ∀ p ∈ d, (if p.1 = g then (p.1, p.2 ++ ([] : List String)) else p) = p := by
      intro p _
      by_cases hp : p.1 = g
      · rw [if_pos hp, List.append_nil]
      · rw [if_neg hp]
    rw [List.map_congr_left he]
    simp
  | cons l rest ih =>
    obtain ⟨h1, h2⟩ := hts l (List.mem_cons_self l rest)
    rw [List.foldl_cons, parseLine_tissue d g l hg h1 h2,
      ih _ (fun x hx => hts x (List.mem_cons_of_mem l hx))]
    rw [List.map_map]
    have he : ∀ p ∈ d,
        ((fun p => if p.1 = g then (p.1, p.2 ++ rest.map trimS) else p) ∘
          (fun p => if p.1 = g then (p.1, p.2 ++ [trimS l]) else p)) p =
        (if p.1 = g then (p.1, p.2 ++ (l :: rest).map trimS) else p) := by
      intro p _
      by_cases hp : p.1 = g
      · simp [hp, List.append_assoc]
      · simp [hp]
    rw [List.map_congr_left he]

theorem lookup_map_append_tissue (d : List (String × List String)) (g : String)
    (vs : List String) :
    (d.map (fun p => if p.1 = g then (p.1, p.2 ++ vs) else p)).lookup g =
      (d.lookup g).map (fun l => l ++ vs) := by
  induction d with
  | nil => rfl
  | cons p rest ih =>
    by_cases hp : p.1 = g
    · subst hp
      rw [List.map_cons, if_pos rfl, show p = (p.1, p.2) from rfl,
        lookup_cons_head, lookup_cons_head]
      rfl
    · rw [List.map_cons, if_neg hp, show p = (p.1, p.2) from rfl,
        lookup_cons_tail g p.1 _ _ (fun he => hp he.symm),
        lookup_cons_tail g p.1 p.2 rest (fun he => hp he.symm), ih]

/-! ## Claim C4 -/

/-- C4 is false on the code for a group header whose name trims to the empty
string: the input `#` then `liver` opens the group named "" but the tissue
line `liver` is then dropped — not assigned to the most recently opened
group — because the Python membership test `elif current_group:` treats the
empty group name as falsy. -/
theorem C4_counterexample :
    load_histology_dictionary [("#"), ("liver")] = [(("" : String), [])] ∧
    ∀ p ∈ load_histology_dictionary [("#"), ("liver")], ("liver" : String) ∉ p.2 := by
  constructor
  · decide
  · decide

/-- C4 (amended): the dictionary parser ignores blank lines, silently drops
tissue lines appearing before any group header, returns the empty dictionary
(rather than raising) when the input has no group header, and assigns each
non-blank non-`#` line to the most recently opened group PROVIDED that
group's trimmed name is nonempty; lines following a header whose name trims
to the empty string are dropped like pre-header lines. -/
theorem C4_parser_amended :
    (∀ lines : List String, (∀ l ∈ lines, startsWithHash (trimS l) = false) →
      load_histology_dictionary lines = []) ∧
    (∀ pre post : List String, ∀ b : String, trimS b = "" →
      load_histology_dictionary (pre ++ b :: post) =
        load_histology_dictionary (pre ++ post)) ∧
    (∀ pre rest : List String, (∀ l ∈ pre, startsWithHash (trimS l) = false) →
      load_histology_dictionary (pre ++ rest) = load_histology_dictionary rest) ∧
    (∀ hd : String, ∀ ts : List String, startsWithHash (trimS hd) = true →
      trimS (strTail (trimS hd)) ≠ "" →
      (∀ l ∈ ts, trimS l ≠ "" ∧ startsWithHash (trimS l) = false) →
      load_histology_dictionary (hd :: ts) =
        [(trimS (strTail (trimS hd)), ts.map trimS)]) := by
  refine ⟨?_, ?_, ?_, ?_⟩
  · intro lines h
    unfold load_histology_dictionary
    rw [foldl_parseLine_no_header lines h]
  · intro pre post b hb
    unfold load_histology_dictionary
    rw [List.foldl_append, List.foldl_cons, parseLine_blank _ b hb,
      ← List.foldl_append]
  · intro pre rest h
    unfold load_histology_dictionary
    rw [List.foldl_append, foldl_parseLine_no_header pre h]
  · intro hd ts hh hg hts
    unfold load_histology_dictionary
    rw [List.foldl_cons, parseLine_header _ hd hh]
    have hins : dictInsert ([] : List (String × List String))
        (trimS (strTail (trimS hd))) [] = [(trimS (strTail (trimS hd)), [])] := rfl
    rw [hins, foldl_parseLine_tissues ts _ _ hg hts]
    simp

/-- C4 witness: each conjunct of the amended parser description applied to a
concrete input: a header-less file parses to the empty dictionary, a blank
line is a no-op, a pre-header tissue line is dropped, and a well-formed
group collects its trimmed tissue lines. -/
theorem C4_parser_amended_witness :
    load_histology_dictionary [("liver"), ("skin")] = [] ∧
    load_histology_dictionary [("#G"), (""), ("a")] =
      load_histology_dictionary [("#G"), ("a")] ∧
    load_histology_dictionary [("stray"), ("#G"), ("a")] =
      load_histology_dictionary [("#G"), ("a")] ∧
    load_histology_dictionary [("#G"), (" a "), ("b")] =
      [(("G"), [("a"), ("b")])] := by
  refine ⟨?_, ?_, ?_, ?_⟩
  · exact C4_parser_amended.1 [("liver"), ("skin")] (by decide)
  · exact C4_parser_amended.2.1 [("#G")] [("a")] ("") (by decide)
  · exact C4_parser_amended.2.2.1 [("stray")] [("#G"), ("a")] (by decide)
  · have h := C4_parser_amended.2.2.2 ("#G") [(" a "), ("b")] (by decide) (by decide)
      (by decide)
    rw [h]
    decide

/-! ## Claim C10 -/

/-- C10: when the same group header recurs, the parser resets that group's
tissue list at the re-occurrence — the final mapping holds exactly the
tissues listed after the last occurrence of the header — while the group
keeps its first-occurrence position: the key ordering of the result is the
key ordering already present before the re-occurrence. -/
theorem C10_duplicate_header (pre mid ts : List String) (hd : String)
    (hh : startsWithHash (trimS hd) = true)
    (hg : trimS (strTail (trimS hd)) ≠ "")
    (hts : ∀ l ∈ ts, trimS l ≠ "" ∧ startsWithHash (trimS l) = false) :
    (load_histology_dictionary (pre ++ hd :: mid ++ hd :: ts)).lookup
        (trimS (strTail (trimS hd))) = some (ts.map trimS) ∧
    (load_histology_dictionary (pre ++ hd :: mid ++ hd :: ts)).map Prod.fst =
      (load_histology_dictionary (pre ++ hd :: mid)).map Prod.fst := by
  have hassoc : pre ++ hd :: mid ++ hd :: ts = (pre ++ hd :: mid) ++ hd :: ts := by
    simp
  have hkey : trimS (strTail (trimS hd)) ∈
      ((pre ++ hd :: mid).foldl parseLine ([], none)).1.map Prod.fst := by
    rw [List.foldl_append, List.foldl_cons, parseLine_header _ hd hh]
    exact mem_keys_foldl_parseLine mid _ _ (mem_keys_dictInsert _ _ [])
  unfold load_histology_dictionary
  rw [hassoc, List.foldl_append, List.foldl_cons, parseLine_header _ hd hh]
  set st1 := (pre ++ hd :: mid).foldl parseLine ([], none) with hst1
  set g := trimS (strTail (trimS hd)) with hgdef
  have hrun := foldl_parseLine_tissues ts (dictInsert st1.1 g []) g hg hts
  rw [hrun]
  constructor
  · dsimp only
    rw [lookup_map_append_tissue, lookup_dictInsert, if_pos rfl]
    rfl
  · dsimp only
    rw [map_fst_append_tissue, keys_dictInsert_of_mem st1.1 g [] hkey]

/-- C10 witness: the file `#G`, `t1`, `#G`, `a`, `b` maps G to [a, b] only
(t1 is discarded by the reset), and the key order equals that of the prefix
before the re-occurrence. -/
theorem C10_duplicate_header_witness :
    (load_histology_dictionary [("#G"), ("t1"), ("#G"), ("a"), ("b")]).lookup
      ("G") = some [("a"), ("b")] ∧
    (load_histology_dictionary [("#G"), ("t1"), ("#G"), ("a"), ("b")]).map
      Prod.fst = (load_histology_dictionary [("#G"), ("t1")]).map Prod.fst := by
  have h := C10_duplicate_header [] [("t1")] [("a"), ("b")] ("#G") (by decide)
    (by decide) (by decide)
  constructor
  · have h1 := h.1
    rw [show trimS (strTail (trimS ("#G"))) = ("G") from by decide] at h1
    rw [show List.map trimS [("a"), ("b")] = [("a"), ("b")] from by decide] at h1
    exact h1
  · exact h.2

/-! ## Aggregation lemmas -/

theorem filter_map_keyPreserving {κ β : Type} [DecidableEq κ]
    (l : List (κ × β)) (f : κ × β → κ × β) (hf : ∀ p, (f p).1 = p.1) (k : κ) :
    (l.map f).filter (fun p => decide (p.1 = k)) =
      (l.filter (fun p => decide (p.1 = k))).map f := by
  induction l with
  | nil => rfl
  | cons p rest ih =>
    by_cases hp : p.1 = k
    · simp [List.filter_cons, hf p, hp, ih]
    · simp [List.filter_cons, hf p, hp, ih]

theorem filter_aggStep_ne (ttg : List (String × String))
    (acc : List ((String × String × String) × List ℚ)) (r : Row)
    (k : String × String × String) (hk : rowKey ttg r ≠ k) :
    (aggStep ttg acc r).filter (fun p => decide (p.1 = k)) =
      acc.filter (fun p => decide (p.1 = k)) := by
  unfold aggStep
  by_cases ha : acc.any (fun p => decide (p.1 = rowKey ttg r)) = true
  · rw [if_pos ha, filter_map_keyPreserving _ _
      (fun p => by by_cases h : p.1 = rowKey ttg r <;> simp [h]) k]
    have hid : ∀ p ∈ acc.filter (fun p => decide (p.1 = k)),
        (if p.1 = rowKey ttg r then (p.1, p.2 ++ [r.nTPM]) else p) = p := by
      intro p hp
      have hpk : p.1 = k := by simpa using (List.mem_filter.mp hp).2
      rw [if_neg (fun he => hk (he.symm.trans hpk))]
    rw [List.map_congr_left hid]
    simp
  · rw [if_neg ha, List.filter_append]
    have hone : List.filter (fun p => decide (p.1 = k))
        [(rowKey ttg r, [r.nTPM])] = [] := by
      simp [hk]
    rw [hone, List.append_nil]

theorem aggFold_bucket (ttg : List (String × String)) (rows : List Row)
    (k : String × String × String) :
    ∀ acc : List ((String × String × String) × List ℚ),
    (acc.filter (fun p => decide (p.1 = k)) = [] →
      (rows.foldl (aggStep ttg) acc).filter (fun p => decide (p.1 = k)) =
        (if (rows.filter (fun r => decide (rowKey ttg r = k))) = [] then []
         else [(k, (rows.filter (fun r => decide (rowKey ttg r = k))).map
           (·.nTPM))])) ∧
    (∀ vs : List ℚ, acc.filter (fun p => decide (p.1 = k)) = [(k, vs)] →
      (rows.foldl (aggStep ttg) acc).filter (fun p => decide (p.1 = k)) =
        [(k, vs ++ (rows.filter (fun r => decide (rowKey ttg r = k))).map
          (·.nTPM))]) := by
  induction rows with
  | nil =>
    intro acc
    constructor
    · intro h0
      simpa using h0
    · intro vs hvs
      simpa using hvs
  | cons r rest ih =>
    intro acc
    constructor
    · intro h0
      rw [List.foldl_cons]
      by_cases hk : rowKey ttg r = k
      · have hanyf : acc.any (fun p => decide (p.1 = rowKey ttg r)) = false := by
          rw [hk]
          cases hb : acc.any (fun p => decide (p.1 = k)) with
          | false => rfl
          | true =>
            rcases List.any_eq_true.mp hb with ⟨p, hp, hpk⟩
            have : p ∈ acc.filter (fun p => decide (p.1 = k)) :=
              List.mem_filter.mpr ⟨hp, hpk⟩
            rw [h0] at this
            exact absurd this (List.not_mem_nil p)
        have hstep : aggStep ttg acc r = acc ++ [(rowKey ttg r, [r.nTPM])] := by
          unfold aggStep
          rw [if_neg (by rw [hanyf]; exact Bool.false_ne_true)]
        have hacc' : (aggStep ttg acc r).filter (fun p => decide (p.1 = k)) =
            [(k, [r.nTPM])] := by
          rw [hstep, List.filter_append, h0, List.nil_append, hk]
          simp
        have := (ih (aggStep ttg acc r)).2 [r.nTPM] hacc'
        rw [this]
        have hfc : (r :: rest).filter (fun r => decide (rowKey ttg r = k)) =
            r :: rest.filter (fun r => decide (rowKey ttg r = k)) := by
          simp [List.filter_cons, hk]
        rw [hfc]
        simp
      · have := (ih (aggStep ttg acc r)).1
          (by rw [filter_aggStep_ne ttg acc r k hk]; exact h0)
        rw [this]
        have hfc : (r :: rest).filter (fun r => decide (rowKey ttg r = k)) =
            rest.filter (fun r => decide (rowKey ttg r = k)) := by
          simp [List.filter_cons, hk]
        rw [hfc]
    · intro vs hvs
      rw [List.foldl_cons]
      by_cases hk : rowKey ttg r = k
      · have hmem : (k, vs) ∈ acc := by
          have : (k, vs) ∈ acc.filter (fun p => decide (p.1 = k)) := by
            rw [hvs]; exact List.mem_singleton.mpr rfl
          exact List.mem_of_mem_filter this
        have hany : acc.any (fun p => decide (p.1 = rowKey ttg r)) = true := by
          rw [hk]
          exact List.any_eq_true.mpr ⟨(k, vs), hmem, by simp⟩
        have hstep : aggStep ttg acc r =
            acc.map (fun p => if p.1 = rowKey ttg r then (p.1, p.2 ++ [r.nTPM])
              else p) := by
          unfold aggStep
          rw [if_pos hany]
        have hacc' : (aggStep ttg acc r).filter (fun p => decide (p.1 = k)) =
            [(k, vs ++ [r.nTPM])] := by
          rw [hstep, filter_map_keyPreserving _ _
            (fun p => by by_cases h : p.1 = rowKey ttg r <;> simp [h]) k, hvs]
          simp [hk]
        have := (ih (aggStep ttg acc r)).2 (vs ++ [r.nTPM]) hacc'
        rw [this]
        have hfc : (r :: rest).filter (fun r => decide (rowKey ttg r = k)) =
            r :: rest.filter (fun r => decide (rowKey ttg r = k)) := by
          simp [List.filter_cons, hk]
        rw [hfc]
        simp
      · have := (ih (aggStep ttg acc r)).2 vs
          (by rw [filter_aggStep_ne ttg acc r k hk]; exact hvs)
        rw [this]
        have hfc : (r :: rest).filter (fun r => decide (rowKey ttg r = k)) =
            rest.filter (fun r => decide (rowKey ttg r = k)) := by
          simp [List.filter_cons, hk]
        rw [hfc]

/-! ## Claim C3 -/

/-- C3: `aggregate_by_organ_group` produces exactly one output row per
`(gene_id, gene_name, group)` key present in the input — the filter of the
output on any key is the singleton carrying the arithmetic mean of that
key's values, and is empty for keys not present — and a row whose tissue is
absent from the mapping is assigned the group "Other". -/
theorem C3_aggregate_one_row_mean (ttg : List (String × String)) (rows : List Row)
    (g n grp : String) :
    ((aggregate_by_organ_group ttg rows).filter
      (fun out => decide (out.gene = g ∧ out.geneName = n ∧ out.tissue = grp))) =
      (if (rows.filter (fun r => decide (rowKey ttg r = (g, n, grp)))) = [] then []
       else [⟨g, n, grp, meanQ ((rows.filter
         (fun r => decide (rowKey ttg r = (g, n, grp)))).map (·.nTPM))⟩]) ∧
    (∀ r : Row, ttg.lookup r.tissue = none → groupOf ttg r.tissue = ("Other")) := by
  constructor
  · unfold aggregate_by_organ_group
    rw [List.filter_map]
    have hpred : ((fun out : Row =>
        decide (out.gene = g ∧ out.geneName = n ∧ out.tissue = grp)) ∘
        (fun p : (String × String × String) × List ℚ =>
          (⟨p.1.1, p.1.2.1, p.1.2.2, meanQ p.2⟩ : Row))) =
        fun p => decide (p.1 = (g, n, grp)) := by
      funext p
      simp only [Function.comp]
      rcases p with ⟨⟨a, b, c⟩, vals⟩
      by_cases h1 : a = g <;> by_cases h2 : b = n <;> by_cases h3 : c = grp <;>
        simp [h1, h2, h3, Prod.ext_iff]
    rw [hpred, (aggFold_bucket ttg rows (g, n, grp) []).1 rfl]
    by_cases hnil : (rows.filter (fun r => decide (rowKey ttg r = (g, n, grp)))) = []
    · rw [if_pos hnil, if_pos hnil]
      rfl
    · rw [if_neg hnil, if_neg hnil]
      rfl
  · intro r h
    unfold groupOf
    rw [h]
    rfl

/-- C3 witness, on the specification's own example: a gene g with tissues
A:10 and B:20 both mapped to "Digestive" aggregates to the single row
(g, "Digestive", 15); a tissue absent from the mapping resolves to
"Other". -/
theorem C3_aggregate_one_row_mean_witness :
    ((aggregate_by_organ_group [(("A"), ("Digestive")), (("B"), ("Digestive"))]
      [⟨("g"), ("g"), ("A"), 10⟩, ⟨("g"), ("g"), ("B"), 20⟩]).filter
      (fun out => decide (out.gene = ("g") ∧ out.geneName = ("g") ∧
        out.tissue = ("Digestive")))) =
      [⟨("g"), ("g"), ("Digestive"), 15⟩] ∧
    groupOf [] ("X") = ("Other") := by
  constructor
  · rw [(C3_aggregate_one_row_mean
      [(("A"), ("Digestive")), (("B"), ("Digestive"))]
      [⟨("g"), ("g"), ("A"), 10⟩, ⟨("g"), ("g"), ("B"), 20⟩]
      ("g") ("g") ("Digestive")).1]
    rw [if_neg (by decide)]
    have hvals : (([⟨("g"), ("g"), ("A"), 10⟩,
        ⟨("g"), ("g"), ("B"), 20⟩] : List Row).filter
        (fun r => decide (rowKey [(("A"), ("Digestive")), (("B"), ("Digestive"))] r =
          (("g"), ("g"), ("Digestive"))))).map (·.nTPM) = [10, 20] := by
      decide
    rw [hvals]
    have hmean : meanQ [10, 20] = 15 := by
      norm_num [meanQ]
    rw [hmean]
  · exact (C3_aggregate_one_row_mean [] [] ("x") ("x") ("x")).2
      ⟨("x"), ("x"), ("X"), 0⟩ rfl

/-- C1 witness, on the worked example of the specification: dictionary
Liver: liver; Brain: cortex, cerebellum; table tissues liver, cortex,
CEREBELLUM, skin.  The tissue skin is unmatched and resolves to "Other",
and the match list is duplicate-free, so the ordered list is a
duplicate-free enumeration of the distinct tissues. -/
theorem C1_resolver_amended_witness :
    (("skin") ∈ uniqueTissues
      [⟨("g"), ("g"), ("liver"), 1⟩, ⟨("g"), ("g"), ("cortex"), 1⟩,
       ⟨("g"), ("g"), ("CEREBELLUM"), 1⟩, ⟨("g"), ("g"), ("skin"), 1⟩]) ∧
    ((get_ordered_tissues_by_group
      [(("Liver"), [("liver")]), (("Brain"), [("cortex"), ("cerebellum")])]
      [⟨("g"), ("g"), ("liver"), 1⟩, ⟨("g"), ("g"), ("cortex"), 1⟩,
       ⟨("g"), ("g"), ("CEREBELLUM"), 1⟩, ⟨("g"), ("g"), ("skin"), 1⟩]).2.lookup
      ("skin") = some ("Other")) ∧
    (get_ordered_tissues_by_group
      [(("Liver"), [("liver")]), (("Brain"), [("cortex"), ("cerebellum")])]
      [⟨("g"), ("g"), ("liver"), 1⟩, ⟨("g"), ("g"), ("cortex"), 1⟩,
       ⟨("g"), ("g"), ("CEREBELLUM"), 1⟩, ⟨("g"), ("g"), ("skin"), 1⟩]).1.Nodup := by
  refine ⟨by decide, ?_, ?_⟩
  · exact (C1_resolver_amended
      [(("Liver"), [("liver")]), (("Brain"), [("cortex"), ("cerebellum")])]
      [⟨("g"), ("g"), ("liver"), 1⟩, ⟨("g"), ("g"), ("cortex"), 1⟩,
       ⟨("g"), ("g"), ("CEREBELLUM"), 1⟩, ⟨("g"), ("g"), ("skin"), 1⟩]).2.2.1
      ("skin") (by decide) (by decide)
  · exact (C1_resolver_amended
      [(("Liver"), [("liver")]), (("Brain"), [("cortex"), ("cerebellum")])]
      [⟨("g"), ("g"), ("liver"), 1⟩, ⟨("g"), ("g"), ("cortex"), 1⟩,
       ⟨("g"), ("g"), ("CEREBELLUM"), 1⟩, ⟨("g"), ("g"), ("skin"), 1⟩]).2.2.2
      (by decide)

/-! ## Claim C6 -/

/-- C6: the log transform and the hover-text recovery are exact inverses on
nonnegative values: for v ≥ 0, 2 ^ log2(v + 1) - 1 = v (over `ℝ`, which
subsumes equality within any floating tolerance). -/
theorem C6_log_roundtrip (v : ℝ) (h : 0 ≤ v) : hoverOriginal (logTransform v) = v := by
  unfold hoverOriginal logTransform
  rw [Real.rpow_logb (by norm_num) (by norm_num) (by linarith)]
  ring

/-- C6 witness at v = 0. -/
theorem C6_log_roundtrip_witness :
    (0 : ℝ) ≤ 0 ∧ hoverOriginal (logTransform 0) = 0 :=
  ⟨le_refl 0, C6_log_roundtrip 0 (le_refl 0)⟩

/-! ## Claim C8 -/

/-- C8: the empty gene selection yields the EmptySelection prompt — the
callback returns the informational alert, not a crash and not a chart. -/
theorem C8_empty_selection (logFn : ℚ → ℚ) (shared : SharedState)
    (grouping viz_type log_scale : String) :
    update_visualization logFn shared [] grouping viz_type log_scale =
      VizResult.emptySelection := rfl

/-! ## Claim C9 -/

/-- C9: the three chart builders are pure: the produced chart description
does not depend on the shared loader state, and each builder returns the
shared state and the caller's row list unchanged (the source mutates only a
local copy of its `data` argument). -/
theorem C9_builders_pure (shared shared' : SharedState) (data : List Row)
    (ordered : List String) (ttg : List (String × String)) (sg ls : Bool) :
    ((create_heatmap shared data ordered ttg sg ls).1 =
        (create_heatmap shared' data ordered ttg sg ls).1 ∧
      (create_heatmap shared data ordered ttg sg ls).2 = (shared, data)) ∧
    ((create_bar_chart shared data ordered ttg ls).1 =
        (create_bar_chart shared' data ordered ttg ls).1 ∧
      (create_bar_chart shared data ordered ttg ls).2 = (shared, data)) ∧
    ((create_box_plot shared data ordered ttg ls).1 =
        (create_box_plot shared' data ordered ttg ls).1 ∧
      (create_box_plot shared data ordered ttg ls).2 = (shared, data)) :=
  ⟨⟨rfl, rfl⟩, ⟨rfl, rfl⟩, ⟨rfl, rfl⟩⟩

/-! ## Claim C7 -/

theorem sepLoop_mem (ttg : List (String × String)) (cols : List String) :
    ∀ (k : ℕ) (cur : Option String) (q : ℚ),
    q ∈ sepLoop ttg k cur cols ↔
      ∃ j, j < cols.length ∧ q = ((k + j : ℕ) : ℚ) - 1 / 2 ∧
        some (groupOf ttg (cols.getD j "")) ≠
          (if j = 0 then cur else some (groupOf ttg (cols.getD (j - 1) ""))) := by
  induction cols with
  | nil => intro k cur q; simp [sepLoop]
  | cons t rest ih =>
    intro k cur q
    have hstep : sepLoop ttg k cur (t :: rest) =
        if some (groupOf ttg t) = cur then sepLoop ttg (k + 1) cur rest
        else ((k : ℚ) - 1 / 2) :: sepLoop ttg (k + 1) (some (groupOf ttg t)) rest := by
      rfl
    by_cases hc : some (groupOf ttg t) = cur
    · rw [hstep, if_pos hc, ← hc, ih (k + 1) (some (groupOf ttg t)) q]
      constructor
      · rintro ⟨j, hj, hq, hcond⟩
        refine ⟨j + 1, Nat.succ_lt_succ hj, ?_, ?_⟩
        · rw [hq]
          have harith : k + 1 + j = k + (j + 1) := by omega
          rw [harith]
        · cases j with
          | zero => simpa using hcond
          | succ m => simpa using hcond
      · rintro ⟨j, hj, hq, hcond⟩
        cases j with
        | zero => simp at hcond
        | succ m =>
          refine ⟨m, Nat.lt_of_succ_lt_succ hj, ?_, ?_⟩
          · rw [hq]
            have harith : k + (m + 1) = k + 1 + m := by omega
            rw [harith]
          · cases m with
            | zero => simpa using hcond
            | succ m2 => simpa using hcond
    · rw [hstep, if_neg hc, List.mem_cons, ih (k + 1) (some (groupOf ttg t)) q]
      constructor
      · rintro (hq | ⟨j, hj, hq, hcond⟩)
        · refine ⟨0, Nat.succ_pos _, ?_, ?_⟩
          · simpa using hq
          · simpa using hc
        · refine ⟨j + 1, Nat.succ_lt_succ hj, ?_, ?_⟩
          · rw [hq]
            have harith : k + 1 + j = k + (j + 1) := by omega
            rw [harith]
          · cases j with
            | zero => simpa using hcond
            | succ m => simpa using hcond
      · rintro ⟨j, hj, hq, hcond⟩
        cases j with
        | zero =>
          left
          simpa using hq
        | succ m =>
          right
          refine ⟨m, Nat.lt_of_succ_lt_succ hj, ?_, ?_⟩
          · rw [hq]
            have harith : k + (m + 1) = k + 1 + m := by omega
            rw [harith]
          · cases m with
            | zero => simpa using hcond
            | succ m2 => simpa using hcond

/-- C7 is false on the code: the separator loop starts with
`current_group = None`, so a vline is always drawn at x = -0.5, before the
first column — a position that is not between any pair of consecutive
columns.  Here both displayed columns share one group, yet a separator is
emitted. -/
theorem C7_counterexample :
    (create_heatmap ⟨[], []⟩
      [⟨("g"), ("g"), ("A"), 1⟩, ⟨("g"), ("g"), ("B"), 2⟩]
      [("A"), ("B")] [(("A"), ("G")), (("B"), ("G"))] true false).1.separators =
      [-(1 / 2 : ℚ)] ∧
    groupOf [(("A"), ("G")), (("B"), ("G"))] ("A") =
      groupOf [(("A"), ("G")), (("B"), ("G"))] ("B") := by
  constructor
  · have hsep : (create_heatmap ⟨[], []⟩
        [⟨("g"), ("g"), ("A"), 1⟩, ⟨("g"), ("g"), ("B"), 2⟩]
        [("A"), ("B")] [(("A"), ("G")), (("B"), ("G"))] true false).1.separators =
        sepLoop [(("A"), ("G")), (("B"), ("G"))] 0 none [("A"), ("B")] := rfl
    rw [hsep]
    simp +decide [sepLoop, groupOf, List.lookup]
  · decide

/-- C7 (amended): in a heatmap over individual tissues (`show_groups` true),
a separator at position i - 1/2 is emitted exactly for the displayed column
indices i that either open the chart (i = 0, an artifact of the loop's None
initialisation) or whose organ group differs from the previous column's
group — and nowhere else. -/
theorem C7_heatmap_separators (shared : SharedState) (data : List Row)
    (ordered_tissues : List String) (ttg : List (String × String))
    (log_scale : Bool) (q : ℚ) :
    q ∈ (create_heatmap shared data ordered_tissues ttg true log_scale).1.separators ↔
      ∃ i, i < (availableTissues ordered_tissues data).length ∧
        q = (i : ℚ) - 1 / 2 ∧
        (i = 0 ∨ groupOf ttg ((availableTissues ordered_tissues data).getD i "") ≠
          groupOf ttg ((availableTissues ordered_tissues data).getD (i - 1) "")) := by
  have hsep : (create_heatmap shared data ordered_tissues ttg true
      log_scale).1.separators =
      sepLoop ttg 0 none (availableTissues ordered_tissues data) := rfl
  rw [hsep, sepLoop_mem ttg (availableTissues ordered_tissues data) 0 none q]
  refine exists_congr (fun i => ?_)
  by_cases hi : i = 0
  · subst hi
    simp
  · simp [hi]

/-! ## Claim C5 -/

theorem isEmpty_false_of_ne_nil {α : Type} (l : List α) (h : l ≠ []) :
    l.isEmpty = false := by
  cases l with
  | nil => exact absurd rfl h
  | cons a t => rfl

/-- The chart-dispatch arms of the fallible callback never produce the
too-large rejection: they either build a chart or propagate the error. -/
theorem map_run_ne_tooLarge {α : Type} (x : Except PandasError α) (f : α → Chart) :
    x.map (fun fig => VizResult.graph (f fig)) ≠ Except.ok VizResult.selectionTooLarge := by
  cases x with
  | ok fig => simp [Except.map]
  | error e => simp [Except.map]

theorem map_run_ok_or_error {α : Type} (x : Except PandasError α) (f : α → Chart) :
    (∃ c, x.map (fun fig => VizResult.graph (f fig)) =
      Except.ok (VizResult.graph c)) ∨
    x.map (fun fig => VizResult.graph (f fig)) =
      Except.error PandasError.valueError := by
  cases x with
  | ok fig => exact Or.inl ⟨f fig, rfl⟩
  | error e => cases e; exact Or.inr rfl

/-- C5 is false as stated: a selection of exactly 10 genes none of which
occurs in the expression table is not charted — the callback returns the
NoDataFound warning, not a chart. -/
theorem C5_counterexample :
    update_visualization_run id
      ⟨[⟨("X"), ("X"), ("liver"), 1⟩], []⟩
      [("g1"), ("g2"), ("g3"), ("g4"), ("g5"), ("g6"), ("g7"), ("g8"), ("g9"),
        ("g10")] ("tissue") ("heatmap") ("linear") =
      Except.ok VizResult.noDataFound ∧
    ([("g1"), ("g2"), ("g3"), ("g4"), ("g5"), ("g6"), ("g7"), ("g8"), ("g9"),
      ("g10")] : List String).length = 10 := by
  constructor
  · rfl
  · rfl

/-- C5 (amended): a selection of exactly 10 genes always passes the size
check — the callback (modelled with its pandas exceptions) never rejects it
as too large; with at least one matching expression row and a recognized
visualization type it either builds a chart or propagates pandas'
ValueError (duplicate pivot pairs or a duplicated displayed column for the
heatmap, duplicate categorical categories for bar and box), and it
definitely builds a chart when those duplicate conditions are absent.  A
selection of 11 or more genes is always rejected with SelectionTooLarge
before any chart work — never truncated. -/
theorem C5_selection_size (logFn : ℚ → ℚ) (shared : SharedState)
    (selected_genes : List String) (grouping viz_type log_scale : String) :
    (selected_genes.length = 10 →
      update_visualization_run logFn shared selected_genes grouping viz_type
        log_scale ≠ Except.ok VizResult.selectionTooLarge) ∧
    (selected_genes.length = 10 →
      get_expression_for_genes shared.expression_data selected_genes ≠ [] →
      (viz_type = ("heatmap") ∨ viz_type = ("bar") ∨ viz_type = ("box")) →
      (∃ c, update_visualization_run logFn shared selected_genes grouping
        viz_type log_scale = Except.ok (VizResult.graph c)) ∨
      update_visualization_run logFn shared selected_genes grouping viz_type
        log_scale = Except.error PandasError.valueError) ∧
    (selected_genes.length = 10 →
      get_expression_for_genes shared.expression_data selected_genes ≠ [] →
      viz_type = ("heatmap") →
      ((chart_inputs logFn shared selected_genes grouping log_scale).1.map
        (fun r => (r.geneName, r.tissue))).Nodup →
      (availableTissues
        (chart_inputs logFn shared selected_genes grouping log_scale).2.1
        (chart_inputs logFn shared selected_genes grouping log_scale).1).Nodup →
      ∃ c, update_visualization_run logFn shared selected_genes grouping
        viz_type log_scale = Except.ok (VizResult.graph c)) ∧
    (selected_genes.length = 10 →
      get_expression_for_genes shared.expression_data selected_genes ≠ [] →
      (viz_type = ("bar") ∨ viz_type = ("box")) →
      (chart_inputs logFn shared selected_genes grouping log_scale).2.1.Nodup →
      ∃ c, update_visualization_run logFn shared selected_genes grouping
        viz_type log_scale = Except.ok (VizResult.graph c)) ∧
    (11 ≤ selected_genes.length →
      update_visualization_run logFn shared selected_genes grouping viz_type
        log_scale = Except.ok VizResult.selectionTooLarge) := by
  refine ⟨?_, ?_, ?_, ?_, ?_⟩
  · intro hlen
    have h1 : selected_genes.isEmpty = false :=
      isEmpty_false_of_ne_nil _ (by intro he; rw [he] at hlen; simp at hlen)
    have hngt : ¬ selected_genes.length > 10 := by omega
    simp only [update_visualization_run, h1, Bool.false_eq_true, if_false, hngt,
      if_true]
    by_cases he : (get_expression_for_genes shared.expression_data
        selected_genes).isEmpty = true
    · simp [he]
    · have he' : (get_expression_for_genes shared.expression_data
          selected_genes).isEmpty = false := by
        cases hb : (get_expression_for_genes shared.expression_data
            selected_genes).isEmpty with
        | true => exact absurd hb he
        | false => rfl
      simp only [he', Bool.false_eq_true, if_false]
      by_cases hv1 : (viz_type == ("heatmap")) = true
      · simp +decide only [hv1, if_true]
        exact map_run_ne_tooLarge _ _
      · have hv1f : (viz_type == ("heatmap")) = false := by
          cases hb : (viz_type == ("heatmap")) with
          | true => exact absurd hb hv1
          | false => rfl
        simp only [hv1f, Bool.false_eq_true, if_false]
        by_cases hv2 : (viz_type == ("bar")) = true
        · simp +decide only [hv2, if_true]
          exact map_run_ne_tooLarge _ _
        · have hv2f : (viz_type == ("bar")) = false := by
            cases hb : (viz_type == ("bar")) with
            | true => exact absurd hb hv2
            | false => rfl
          simp only [hv2f, Bool.false_eq_true, if_false]
          by_cases hv3 : (viz_type == ("box")) = true
          · simp +decide only [hv3, if_true]
            exact map_run_ne_tooLarge _ _
          · have hv3f : (viz_type == ("box")) = false := by
              cases hb : (viz_type == ("box")) with
              | true => exact absurd hb hv3
              | false => rfl
            simp [hv3f]
  · intro hlen hne hviz
    have h1 : selected_genes.isEmpty = false :=
      isEmpty_false_of_ne_nil _ (by intro he; rw [he] at hlen; simp at hlen)
    have hngt : ¬ selected_genes.length > 10 := by omega
    have he' : (get_expression_for_genes shared.expression_data
        selected_genes).isEmpty = false := isEmpty_false_of_ne_nil _ hne
    rcases hviz with hv | hv | hv
    · subst hv
      simp +decide only [update_visualization_run, h1, Bool.false_eq_true,
        if_false, hngt, if_true, he']
      exact map_run_ok_or_error _ _
    · subst hv
      simp +decide only [update_visualization_run, h1, Bool.false_eq_true,
        if_false, hngt, if_true, he']
      exact map_run_ok_or_error _ _
    · subst hv
      simp +decide only [update_visualization_run, h1, Bool.false_eq_true,
        if_false, hngt, if_true, he']
      exact map_run_ok_or_error _ _
  · intro hlen hne hv hp ha
    have h1 : selected_genes.isEmpty = false :=
      isEmpty_false_of_ne_nil _ (by intro he; rw [he] at hlen; simp at hlen)
    have hngt : ¬ selected_genes.length > 10 := by omega
    have he' : (get_expression_for_genes shared.expression_data
        selected_genes).isEmpty = false := isEmpty_false_of_ne_nil _ hne
    subst hv
    simp +decide only [update_visualization_run, h1, Bool.false_eq_true,
      if_false, hngt, if_true, he']
    unfold create_heatmap_run
    rw [if_pos ⟨hp, ha⟩]
    exact ⟨_, rfl⟩
  · intro hlen hne hviz hnodup
    have h1 : selected_genes.isEmpty = false :=
      isEmpty_false_of_ne_nil _ (by intro he; rw [he] at hlen; simp at hlen)
    have hngt : ¬ selected_genes.length > 10 := by omega
    have he' : (get_expression_for_genes shared.expression_data
        selected_genes).isEmpty = false := isEmpty_false_of_ne_nil _ hne
    rcases hviz with hv | hv
    · subst hv
      simp +decide only [update_visualization_run, h1, Bool.false_eq_true,
        if_false, hngt, if_true, he']
      unfold create_bar_chart_run
      rw [if_pos hnodup]
      exact ⟨_, rfl⟩
    · subst hv
      simp +decide only [update_visualization_run, h1, Bool.false_eq_true,
        if_false, hngt, if_true, he']
      unfold create_box_plot_run
      rw [if_pos hnodup]
      exact ⟨_, rfl⟩
  · intro hlen
    have h1 : selected_genes.isEmpty = false :=
      isEmpty_false_of_ne_nil _ (by intro he; rw [he] at hlen; simp at hlen)
    have hgt : selected_genes.length > 10 := by omega
    simp [update_visualization_run, h1, hgt]

/-- C5 witness: ten genes, the first with a table row, heatmap type, on a
table with duplicate-free (gene name, tissue) pairs and duplicate-free
displayed columns: the callback builds a chart; every hypothesis of the
amended theorem's definitely-builds conjunct holds at this concrete
input. -/
theorem C5_selection_size_witness :
    ∃ c, update_visualization_run id
      ⟨[⟨("g1"), ("g1"), ("liver"), 5⟩], []⟩
      [("g1"), ("g2"), ("g3"), ("g4"), ("g5"), ("g6"), ("g7"), ("g8"), ("g9"),
        ("g10")] ("tissue") ("heatmap") ("linear") =
      Except.ok (VizResult.graph c) :=
  (C5_selection_size id ⟨[⟨("g1"), ("g1"), ("liver"), 5⟩], []⟩
    [("g1"), ("g2"), ("g3"), ("g4"), ("g5"), ("g6"), ("g7"), ("g8"), ("g9"),
      ("g10")] ("tissue") ("heatmap") ("linear")).2.2.1 (by decide) (by decide)
    rfl (by decide) (by decide)
